import Mathlib

/-!
Verification of a stock MACD scanner and price monitor.

The namespace `Monitor` embeds `monitor.py`: the alert ledger, the cooldown
gate `should_notify`, the report reader `parse_scan_result`, and the
per-security step of `main`.  The namespace `StockScan` embeds
`scan_monthly.py`: the MACD first-positive-histogram-bar detector
`check_first_macd_red`, the dividend computation `get_dividend_info`, the
eligibility filter of `scan`, and the report ordering of `write_result`.

Python floats are modelled as exact rationals (`ℚ`), timestamps as integer
seconds, and fallible operations (file reads, string parses, the outbound
HTTP call) by explicit `Option`/`Bool` parameters.
-/

attribute [local semireducible] Rat.mul Rat.sub Rat.add Rat.inv Rat.ofScientific

namespace Monitor

/-- The alert ledger persisted in `alert_log.json`: a mapping from security
code to the stored last-notification timestamp for that code.  An entry
holds `some t` when the stored string parses via `datetime.fromisoformat`
to the timestamp `t` (in seconds), and `none` when parsing the stored string
would raise (a corrupt entry). -/
abbrev Ledger := List (String × Option Int)

/-- Lookup of a code in the ledger (Python `code in log` / `log[code]`).
Here `none` means the code is absent; `some v` gives the stored parse
result. -/
def lookupL (code : String) : Ledger → Option (Option Int)
  | [] => none
  | (c, t) :: rest => if c = code then some t else lookupL code rest

/-- Assignment `log[code] = t` on the ledger mapping. -/
def insertL (code : String) (t : Option Int) : Ledger → Ledger
  | [] => [(code, t)]
  | (c, u) :: rest => if c = code then (c, t) :: rest else (c, u) :: insertL code t rest

/-- Cooldown constant `COOLDOWN_HOURS = 1` from `monitor.py`. -/
def COOLDOWN_HOURS : ℚ := 1

/-- Embeds `should_notify(code, log)` from `monitor.py`.  The current time
`now` (Python `datetime.now(TZ_TW)`) is passed explicitly, in seconds.  The
body is state-passing on the ledger: the second component is the ledger
after the call (the Python body only reads `log`, so it is returned
unchanged).  A missing code returns `True`; a corrupt stored timestamp makes
`datetime.fromisoformat` raise, which the bare `except` turns into `True`;
otherwise the elapsed hours `(now - last).total_seconds() / 3600` are
compared against the cooldown with `>=`. -/
def should_notify (code : String) (log : Ledger) (now : Int) : Bool × Ledger :=
  match lookupL code log with
  | none => (true, log)
  | some none => (true, log)
  | some (some t) =>
    let diff_hours : ℚ := ((now - t : ℤ) : ℚ) / 3600
    (decide (COOLDOWN_HOURS ≤ diff_hours), log)

/-- Embeds `load_alert_log()` from `monitor.py`.  `contents` is the file
contents of `alert_log.json` (`none` when the file does not exist), and
`jsonDecode` is the JSON decoder (`json.load`), returning `none` when it
raises.  A missing file or a failed decode both yield the empty mapping. -/
def load_alert_log (contents : Option String) (jsonDecode : String → Option Ledger) : Ledger :=
  match contents with
  | none => []
  | some s =>
    match jsonDecode s with
    | none => []
    | some log => log

/-- Embeds `notify(code, name, current_price, monthly_low)` from
`monitor.py`.  `transportOk` tells whether `requests.get(url, timeout=10)`
completed without raising; `httpStatus` is the HTTP status code of the
response when it did.  The function returns `True` exactly when the request
did not raise — the status code is only printed, never inspected. -/
def notify (transportOk : Bool) (httpStatus : Nat) : Bool :=
  match transportOk, httpStatus with
  | true, _ => true
  | false, _ => false

/-- The per-security body of the loop in `main()` (`monitor.py`), restricted
to its effect on the ledger.  `price?` is the result of `get_current_price`
(`none` when no quote is available), `low` the recorded monthly low, and
`transportOk`/`httpStatus` describe the outbound call that `notify` would
make.  The ledger entry is assigned the current time exactly when the price
breaches the low, the gate allows it, and `notify` returns `True`. -/
def monitorStep (now : Int) (log : Ledger) (code : String) (low : ℚ)
    (price? : Option ℚ) (transportOk : Bool) (httpStatus : Nat) : Ledger :=
  match price? with
  | none => log
  | some price =>
    if price < low then
      if (should_notify code log now).1 then
        if notify transportOk httpStatus then insertL code (some now) log else log
      else log
    else log

/-- A notification attempt is made for a security iff a quote was obtained,
it breaches the monthly low strictly, and the cooldown gate allows it. -/
def attempted (now : Int) (log : Ledger) (code : String) (low : ℚ)
    (price? : Option ℚ) : Bool :=
  match price? with
  | none => false
  | some price => decide (price < low) && (should_notify code log now).1

/-- Test whether `k` is an initial segment of `cs` (character lists). -/
def startsWithChars : List Char → List Char → Bool
  | [], _ => true
  | _ :: _, [] => false
  | k :: ks, c :: cs => k == c && startsWithChars ks cs

/-- Substring test, Python `pat in hay`, on character lists. -/
def containsSub : List Char → List Char → Bool
  | [], pat => pat.isEmpty
  | hay@(_ :: rest), pat => startsWithChars pat hay || containsSub rest pat

/-- Python `str.strip()` on a character list (whitespace on both ends). -/
def trimChars (cs : List Char) : List Char :=
  ((cs.dropWhile Char.isWhitespace).reverse.dropWhile Char.isWhitespace).reverse

/-- Worker for `splitWs2`: `cur` is the current field (reversed), `pend` a
single pending whitespace character that may yet belong to the field, and
`inSep` tells whether we are inside a confirmed run of 2+ whitespace. -/
def splitWs2Go : List Char → List Char → Option Char → Bool → List (List Char)
  | [], cur, pend, inSep =>
    if inSep then [[]]
    else
      match pend with
      | some w => [(w :: cur).reverse]
      | none => [cur.reverse]
  | c :: rest, cur, pend, inSep =>
    if inSep then
      if c.isWhitespace then splitWs2Go rest cur pend true
      else splitWs2Go rest [c] none false
    else if c.isWhitespace then
      match pend with
      | none => splitWs2Go rest cur (some c) false
      | some _ => cur.reverse :: splitWs2Go rest [] none true
    else
      match pend with
      | none => splitWs2Go rest (c :: cur) none false
      | some w => splitWs2Go rest (c :: w :: cur) none false

/-- Python `re.split(r'\s{2,}', s)`: fields are separated by maximal runs of
two or more whitespace characters; a single whitespace character stays
inside its field; empty fields arise from leading or trailing separators. -/
def splitWs2 (cs : List Char) : List (List Char) := splitWs2Go cs [] none false

/-- Numeric value of a digit string. -/
def natOfDigits (cs : List Char) : ℕ :=
  cs.foldl (fun a c => 10 * a + (c.toNat - 48)) 0

/-- Parse of an unsigned decimal literal `digits [. digits]` with at least
one digit: the grammar CPython `float()` accepts on the plain decimal
strings that the scan report contains. -/
def parseUnsignedDecimal (cs : List Char) : Option ℚ :=
  match cs.span Char.isDigit with
  | (intPart, []) =>
    if intPart.isEmpty then none else some (natOfDigits intPart)
  | (intPart, '.' :: fracPart) =>
    if fracPart.all Char.isDigit && !(intPart.isEmpty && fracPart.isEmpty) then
      some ((natOfDigits intPart : ℚ) + (natOfDigits fracPart : ℚ) / 10 ^ fracPart.length)
    else none
  | _ => none

/-- Parse of a decimal literal with optional sign, Python
`float(parts[4].strip())` on the monthly-low field. -/
def parseDecimal : List Char → Option ℚ
  | '+' :: rest => parseUnsignedDecimal rest
  | '-' :: rest => (parseUnsignedDecimal rest).map (fun q => -q)
  | cs => parseUnsignedDecimal cs

/-- The fixed header keywords of `parse_scan_result`: any line containing
one of these is skipped. -/
def headerKeywords : List (List Char) :=
  ["代號".data, "執行時間".data, "篩選條件".data, "共找到".data,
   "台股月MACD".data, "結果已寫入".data, "完成".data]

/-- One monitored security parsed from `scan_result.txt`: 代號 code (with
every `O` removed), 名稱 name, 市場 market, 當月最低價 monthly low. -/
structure Stock where
  code : String
  name : String
  market : String
  monthly_low : ℚ
  deriving DecidableEq

/-- The line-skipping rule of `parse_scan_result`: blank lines, lines
starting with `=` or `-`, and lines containing any header keyword. -/
def isSkippedLine (line : List Char) : Bool :=
  (trimChars line).isEmpty ||
  (match line with
   | c :: _ => c == '=' || c == '-'
   | [] => false) ||
  headerKeywords.any (fun k => containsSub line k)

/-- Python `code.replace('O', '')`: removes every `O` character. -/
def removeO (cs : List Char) : List Char := cs.filter (fun c => c != 'O')

/-- Embeds the per-line body of `parse_scan_result` (`monitor.py`): apply
the skip rule, split the stripped line on runs of 2+ whitespace, require at
least 5 fields with the 5th parsing as a decimal number, strip each used
field, and remove every `O` from the code. -/
def parseLine (line : List Char) : Option Stock :=
  if isSkippedLine line then none
  else
    match splitWs2 (trimChars line) with
    | c0 :: c1 :: c2 :: _ :: c4 :: _ =>
      match parseDecimal (trimChars c4) with
      | none => none
      | some low =>
        some ⟨String.mk (removeO (trimChars c0)), String.mk (trimChars c1),
              String.mk (trimChars c2), low⟩
    | _ => none

/-- Embeds `parse_scan_result` over the lines of the report file. -/
def parse_scan_result (lines : List (List Char)) : List Stock :=
  lines.filterMap parseLine

/-- The data-row condition stated by the claim: the line survives the skip
rule, splits on runs of 2+ whitespace into at least 5 fields, and its 5th
field parses as a decimal number. -/
def isDataRow (line : List Char) : Bool :=
  !isSkippedLine line &&
  decide (5 ≤ (splitWs2 (trimChars line)).length) &&
  (parseDecimal (trimChars ((splitWs2 (trimChars line)).getD 4 []))).isSome

/-- A synthetic report in the shape written by `write_result`: 4
header/separator lines followed by 3 well-formed data lines, one code with
a leading `O` and one with a trailing `O`. -/
def exampleReport : List (List Char) :=
  ["======".data,
   "台股月MACD第一根紅柱掃描結果".data,
   "代號    名稱      市場      現價  當月最低價".data,
   "------".data,
   "O2371  大同    上市    50.00      45.00   2.00    4.0%  多頭   0.1000 / -0.2000".data,
   "1101   台泥    上市    40.00      38.50   1.50    3.8%  空頭   0.0500 / -0.1000".data,
   "5347O  世界    上櫃    30.00      29.25   1.00    3.3%  多頭   0.0200 / -0.0100".data]

/-- Spec-side code normalization stated by the claim: strip only leading
`O` characters from the code. -/
def stripLeadingO (cs : List Char) : List Char := cs.dropWhile (fun c => c == 'O')

end Monitor

namespace StockScan

/-- Kernel-evaluable floor of a rational: `num / den` with Euclidean integer
division (the denominator is positive, so this is the mathematical floor). -/
def rfloor (x : ℚ) : ℤ := x.num / x.den

/-- Round-half-to-even on an exact rational: the semantics of the Python
built-in `round` applied to the exact value. -/
def roundHalfEven (x : ℚ) : ℤ :=
  if x - rfloor x < 1/2 then rfloor x
  else if 1/2 < x - rfloor x then rfloor x + 1
  else if rfloor x % 2 = 0 then rfloor x else rfloor x + 1

/-- Python `round(x, n)` applied to the exact value. -/
def roundTo (n : ℕ) (x : ℚ) : ℚ := (roundHalfEven (x * 10 ^ n) : ℚ) / 10 ^ n

/-- The metadata dict returned by `check_first_macd_red` along with the
signal: both histogram bars rounded to 4 decimals, and the MACD regime label
(`多頭` bullish / `空頭` bearish). -/
structure MacdInfo where
  curr_h : ℚ
  prev_h : ℚ
  regime : String

/-- Embeds `check_first_macd_red(data)` from `scan_monthly.py`.  `macd` and
`hist` are the `MACD` and `MACD_Histogram` columns of the data frame (equal
length, chronologically ascending).  With fewer than two rows there is no
signal; otherwise the signal fires iff the latest histogram bar is `> 0` and
the previous one is `≤ 0` (only the last two rows are inspected), and the
metadata reports both bars rounded to 4 decimals plus the regime from the
sign of the latest MACD value. -/
def check_first_macd_red (macd hist : List ℚ) : Bool × Option MacdInfo :=
  if hist.length < 2 then (false, none)
  else
    match hist.reverse with
    | curr_h :: prev_h :: _ =>
      if 0 < curr_h ∧ prev_h ≤ 0 then
        (true, some ⟨roundTo 4 curr_h, roundTo 4 prev_h,
          if 0 < macd.getLastD 0 then "多頭" else "空頭"⟩)
      else (false, none)
    | _ => (false, none)

/-- Threshold constant `MIN_DIVIDEND_YIELD = 3.0` from `scan_monthly.py`. -/
def MIN_DIVIDEND_YIELD : ℚ := 3

/-- The raw trailing yield `recent_div / current_price * 100` computed by
`get_dividend_info` (0 when the price is not positive), before the sanity
clamp and the 2-decimal rounding. -/
def rawYield (recent_div current_price : ℚ) : ℚ :=
  if 0 < current_price then recent_div / current_price * 100 else 0

/-- The dict returned by `get_dividend_info`: `有發股利`, `近年股利`
(rounded to 2 decimals), `殖利率` (percent, rounded to 2 decimals). -/
structure DividendInfo where
  has_dividend : Bool
  recent_div : ℚ
  yield_pct : ℚ

/-- Embeds `get_dividend_info(stock_code)` from `scan_monthly.py` after its
external fetches: `recent_div` is the sum of the dividends paid in the
trailing 365 days (0 when there are none), and `price?` the latest close of
the 5-day lookback window (`none` when that history is empty, which returns
the all-zero profile).  The yield is `recent_div / current_price * 100`,
forced to 0 above the 20% sanity ceiling, then rounded to 2 decimals;
`has_dividend` is `recent_div > 0`, computed before clamp and rounding. -/
def get_dividend_info (recent_div : ℚ) (price? : Option ℚ) : DividendInfo :=
  match price? with
  | none => ⟨false, 0, 0⟩
  | some current_price =>
    ⟨decide (0 < recent_div), roundTo 2 recent_div,
      roundTo 2 (if 20 < rawYield recent_div current_price then 0
                 else rawYield recent_div current_price)⟩

/-- The eligibility filter applied inside `scan` (`scan_monthly.py`): a
security is kept iff `div_info[有發股利]` holds and `div_info[殖利率]` is
not below `MIN_DIVIDEND_YIELD`. -/
def eligible (d : DividendInfo) : Bool :=
  d.has_dividend && !decide (d.yield_pct < MIN_DIVIDEND_YIELD)

/-- One row of the scan report, reduced to the fields relevant to the final
ordering: the security code identifies the row and `yield_pct` is the sort
key `殖利率%`. -/
structure ScanRow where
  code : String
  yield_pct : ℚ
  deriving DecidableEq

/-- The ordering applied by `write_result` (`scan_monthly.py`):
`sorted(results, key=lambda x: x[殖利率%], reverse=True)`.  The Python
`sorted` is stable, and with `reverse=True` equal keys still keep their
original order, which is exactly a stable sort under the reversed key
comparison — here the (stable) `List.mergeSort`. -/
def write_result_order (rs : List ScanRow) : List ScanRow :=
  rs.mergeSort (fun a b => decide (b.yield_pct ≤ a.yield_pct))

end StockScan

namespace Monitor

/-- C2: `should_notify` returns the ledger unchanged (it never mutates it);
it returns `true` when the code is absent from the ledger; and for a
present, parseable timestamp it returns `true` iff at least the cooldown
(1 hour = 3600 seconds) has elapsed, the boundary being inclusive. -/
theorem should_notify_contract (code : String) (log : Ledger) (now : Int) :
    (should_notify code log now).2 = log ∧
    (lookupL code log = none → (should_notify code log now).1 = true) ∧
    (∀ t : ℤ, lookupL code log = some (some t) →
      ((should_notify code log now).1 = true ↔ 3600 ≤ now - t)) := by
  refine ⟨?_, ?_, ?_⟩
  · rcases h : lookupL code log with _ | (_ | t) <;> simp [should_notify, h]
  · intro h; simp [should_notify, h]
  · intro t h
    simp only [should_notify, h, decide_eq_true_eq]
    rw [COOLDOWN_HOURS, le_div_iff₀ (by norm_num), one_mul]
    exact_mod_cast Iff.rfl

/-- Witness for C2: with the last alert recorded at time 0 and the clock at
exactly 3600 seconds, the gate fires (inclusive cooldown boundary). -/
theorem should_notify_contract_witness :
    (should_notify "2371" [("2371", some (0 : Int))] 3600).1 = true :=
  ((should_notify_contract "2371" [("2371", some (0 : Int))] 3600).2.2 0
    (by decide)).mpr (by decide)

/-- C6: a ledger entry whose stored timestamp string fails to parse is
treated as never-alerted: `should_notify` returns `true` for that code. -/
theorem should_notify_corrupt_entry (code : String) (log : Ledger) (now : Int)
    (h : lookupL code log = some none) :
    (should_notify code log now).1 = true := by
  simp [should_notify, h]

/-- Witness for C6 at a concrete corrupt ledger entry. -/
theorem should_notify_corrupt_entry_witness :
    (should_notify "2371" [("2371", (none : Option Int))] 0).1 = true :=
  should_notify_corrupt_entry "2371" [("2371", none)] 0 (by decide)

/-- C10: a missing ledger file, or one whose contents fail to decode as
JSON, yields the empty mapping, on which every code is treated as
never-alerted (`should_notify` answers `true` for every code at every
time). -/
theorem load_alert_log_fail_open (contents : Option String)
    (jsonDecode : String → Option Ledger)
    (h : contents = none ∨ ∃ s, contents = some s ∧ jsonDecode s = none) :
    load_alert_log contents jsonDecode = [] ∧
    ∀ (code : String) (now : Int),
      (should_notify code (load_alert_log contents jsonDecode) now).1 = true := by
  have hempty : load_alert_log contents jsonDecode = [] := by
    rcases h with h | ⟨s, hs, hd⟩
    · simp [load_alert_log, h]
    · simp [load_alert_log, hs, hd]
  refine ⟨hempty, fun code now => ?_⟩
  rw [hempty]
  simp [should_notify, lookupL]

/-- Witness for C10: concrete undecodable contents yield the empty ledger
and an immediately-firing gate. -/
theorem load_alert_log_fail_open_witness :
    load_alert_log (some "bad") (fun _ => none) = [] ∧
    (should_notify "2371" (load_alert_log (some "bad") (fun _ => none)) 0).1 = true := by
  obtain ⟨h1, h2⟩ :=
    load_alert_log_fail_open (some "bad") (fun _ => none) (Or.inr ⟨"bad", rfl, rfl⟩)
  exact ⟨h1, h2 "2371" 0⟩

/-- C3: the ledger entry for a monitored security is assigned the current
timestamp iff a notification attempt is made and the attempt succeeds,
where success means the outbound call raised no transport error — the HTTP
status code never affects the result of `notify`; a failed attempt, or no
attempt, leaves the ledger unchanged. -/
theorem ledger_write_iff_notify_success (now : Int) (log : Ledger) (code : String)
    (low : ℚ) (price? : Option ℚ) (transportOk : Bool) (httpStatus : Nat) :
    (∀ s1 s2 : Nat, notify transportOk s1 = notify transportOk s2) ∧
    monitorStep now log code low price? transportOk httpStatus =
      (if attempted now log code low price? && notify transportOk httpStatus
        then insertL code (some now) log else log) ∧
    lookupL code (insertL code (some now) log) = some (some now) := by
  refine ⟨fun s1 s2 => by cases transportOk <;> rfl, ?_, ?_⟩
  · rcases price? with _ | price
    · simp [monitorStep, attempted]
    · by_cases hb : price < low
      · by_cases hg : (should_notify code log now).1 <;>
          cases transportOk <;> simp [monitorStep, attempted, notify, hb, hg]
      · simp [monitorStep, attempted, hb]
  · induction log with
    | nil => simp [insertL, lookupL]
    | cons hd tl ih =>
      obtain ⟨c, u⟩ := hd
      by_cases hc : c = code <;> simp [insertL, lookupL, hc, ih]

/-- Witness for C3: a never-alerted breaching security whose notification
succeeds gets its ledger entry stamped with the current time. -/
theorem ledger_write_iff_notify_success_witness :
    monitorStep 100 [] "2371" 50 (some 45) true 200 = [("2371", some (100 : Int))] := by
  have h := (ledger_write_iff_notify_success 100 [] "2371" 50 (some 45) true 200).2.1
  rw [h]
  decide

/-- C7 counterexample: the example report contains the well-formed data code
`5347O`; the parser yields `5347` for it, while stripping only leading `O`
characters — what the claim states — would leave `5347O` unchanged, so the
parsed entries are not the leading-O-stripped codes. -/
theorem parse_scan_result_not_leading_O_only :
    (parse_scan_result exampleReport).map Stock.code = ["2371", "1101", "5347"] ∧
    String.mk (stripLeadingO "5347O".data) = "5347O" ∧
    ("5347" : String) ≠ "5347O" :=
  ⟨by decide, by decide, by decide⟩

/-- C7 (amended): a line is a data row iff, after the skip rules (blank
lines, lines starting with `=` or `-`, lines containing a header keyword),
it splits on runs of 2+ whitespace into at least 5 fields whose 5th parses
as a decimal number; parsing preserves the original order (it distributes
over append); and the 7-line example report (4 header/separator lines, 3
data lines) parses to exactly its 3 data rows in original order, with every
`O` removed from each code. -/
theorem parse_scan_result_spec :
    (∀ line : List Char, (parseLine line).isSome = isDataRow line) ∧
    (∀ l1 l2 : List (List Char),
      parse_scan_result (l1 ++ l2) = parse_scan_result l1 ++ parse_scan_result l2) ∧
    parse_scan_result exampleReport =
      [⟨"2371", "大同", "上市", 45⟩, ⟨"1101", "台泥", "上市", 77/2⟩,
       ⟨"5347", "世界", "上櫃", 117/4⟩] := by
  refine ⟨?_, ?_, by decide⟩
  · intro line
    by_cases hs : isSkippedLine line
    · simp [parseLine, isDataRow, hs]
    · simp only [parseLine, isDataRow, hs, Bool.not_false, Bool.true_and, if_false,
        Bool.false_eq_true]
      rcases h : splitWs2 (trimChars line) with _ | ⟨c0, _ | ⟨c1, _ | ⟨c2, _ | ⟨c3, _ | ⟨c4, rest⟩⟩⟩⟩⟩
      · simp [h]
      · simp [h]
      · simp [h]
      · simp [h]
      · simp [h]
      · rcases hp : parseDecimal (trimChars c4) with _ | low <;>
          simp [h, hp, List.getD]
  · intro l1 l2
    simp [parse_scan_result]

/-- Witness for C7: a concrete well-formed line is recognized as a data
row. -/
theorem parse_scan_result_spec_witness :
    isDataRow "1101   台泥    上市    40.00      38.50".data = true := by
  have h := parse_scan_result_spec.1 "1101   台泥    上市    40.00      38.50".data
  rw [← h]
  decide

end Monitor

namespace StockScan

/-- The executable floor agrees with the Mathlib `Int.floor`. -/
theorem rfloor_eq_floor (x : ℚ) : rfloor x = ⌊x⌋ := by
  rw [rfloor, Rat.floor_def]

/-- C1: the first-positive-bar detector reports no signal on fewer than two
histogram values, and otherwise fires iff the latest histogram value is
`> 0` and the previous one is `≤ 0` — only the last two values matter (the
earlier history `rest` is arbitrary).  In particular `0, 0` does not fire
and `0, 0.01` fires (see the witness). -/
theorem check_first_macd_red_fires_iff (macd hist : List ℚ) :
    (hist.length < 2 → (check_first_macd_red macd hist).1 = false) ∧
    (∀ curr prev rest, hist.reverse = curr :: prev :: rest →
      ((check_first_macd_red macd hist).1 = true ↔ (0 < curr ∧ prev ≤ 0))) := by
  constructor
  · intro h
    simp [check_first_macd_red, h]
  · intro curr prev rest h
    have hlen : ¬ hist.length < 2 := by
      have := congrArg List.length h
      simp only [List.length_reverse, List.length_cons] at this
      omega
    unfold check_first_macd_red
    rw [if_neg hlen, h]
    by_cases hc : 0 < curr ∧ prev ≤ 0
    · simp [hc]
    · simp [hc]

/-- Witness for C1: a `0 → 0.01` histogram transition fires, a `0 → 0`
transition does not. -/
theorem check_first_macd_red_fires_iff_witness :
    (check_first_macd_red [] [0, 1/100]).1 = true ∧
    (check_first_macd_red [] [0, 0]).1 = false := by
  constructor
  · exact ((check_first_macd_red_fires_iff [] [0, 1/100]).2 (1/100) 0 []
      (by decide)).mpr (by decide)
  · have h := (check_first_macd_red_fires_iff [] [0, 0]).2 0 0 [] (by decide)
    cases hb : (check_first_macd_red [] [0, 0]).1 with
    | false => rfl
    | true => exact absurd (h.mp hb) (by decide)

/-- C4: the eligibility filter qualifies a profile iff it pays a dividend
and its reported yield is at least the 3% threshold; the boundary is
inclusive — a yield of exactly 3.00 qualifies, 2.999 does not. -/
theorem eligible_iff :
    (∀ d : DividendInfo, eligible d = true ↔
      (d.has_dividend = true ∧ MIN_DIVIDEND_YIELD ≤ d.yield_pct)) ∧
    eligible ⟨true, 1, 3⟩ = true ∧
    eligible ⟨true, 1, 2999/1000⟩ = false := by
  refine ⟨fun d => ?_, by decide, by decide⟩
  simp [eligible, not_lt]

/-- Witness for C4: the inclusive boundary instance derived through the
characterization. -/
theorem eligible_iff_witness :
    eligible ⟨true, 1, 3⟩ = true :=
  (eligible_iff.1 ⟨true, 1, 3⟩).mpr ⟨rfl, by decide⟩

/-- C5: a raw computed yield strictly above the 20% ceiling is forced to 0,
so the security fails eligibility, while `has_dividend` still reports
whether the trailing dividend sum is positive. -/
theorem yield_ceiling_clamp (recent_div price : ℚ)
    (hy : 20 < rawYield recent_div price) :
    (get_dividend_info recent_div (some price)).yield_pct = 0 ∧
    eligible (get_dividend_info recent_div (some price)) = false ∧
    (get_dividend_info recent_div (some price)).has_dividend
      = decide (0 < recent_div) := by
  have h0 : (get_dividend_info recent_div (some price)).yield_pct = 0 := by
    have : (get_dividend_info recent_div (some price)).yield_pct
        = roundTo 2 (if 20 < rawYield recent_div price then 0
                     else rawYield recent_div price) := rfl
    rw [this, if_pos hy]
    decide
  refine ⟨h0, ?_, rfl⟩
  have : eligible (get_dividend_info recent_div (some price))
      = ((get_dividend_info recent_div (some price)).has_dividend &&
        !decide ((get_dividend_info recent_div (some price)).yield_pct
          < MIN_DIVIDEND_YIELD)) := rfl
  rw [this, h0]
  simp [MIN_DIVIDEND_YIELD]

/-- Witness for C5: a 25% raw yield (dividend 25, price 100) is clamped to
0 and disqualified although a dividend was paid. -/
theorem yield_ceiling_clamp_witness :
    (get_dividend_info 25 (some 100)).yield_pct = 0 ∧
    eligible (get_dividend_info 25 (some 100)) = false ∧
    (get_dividend_info 25 (some 100)).has_dividend = true := by
  obtain ⟨h1, h2, h3⟩ := yield_ceiling_clamp 25 100 (by decide)
  exact ⟨h1, h2, by rw [h3]; decide⟩

/-- Any rational in `[299.5, 300)` rounds half-to-even to exactly 300. -/
theorem roundHalfEven_reaches_300 (x : ℚ) (hlo : 599/2 ≤ x) (hhi : x < 300) :
    roundHalfEven x = 300 := by
  have hf : rfloor x = 299 := by
    rw [rfloor_eq_floor, Int.floor_eq_iff]
    push_cast
    constructor <;> linarith
  rw [roundHalfEven, hf]
  have h1 : ¬ (x - ((299 : ℤ) : ℚ) < 1/2) := by push_cast; linarith
  rw [if_neg h1]
  by_cases h2 : (1 : ℚ)/2 < x - ((299 : ℤ) : ℚ)
  · rw [if_pos h2]; norm_num
  · rw [if_neg h2, if_neg (by decide : ¬ ((299 : ℤ) % 2 = 0))]; norm_num

/-- C9: the threshold test inside `scan` runs on the yield after 2-decimal
rounding, so any raw yield in `[2.995, 3)` — strictly below the 3.0
threshold — still qualifies when a dividend was paid. -/
theorem eligible_below_threshold_by_rounding (recent_div price : ℚ)
    (hp : 0 < price) (hd : 0 < recent_div)
    (hlo : 2995/1000 ≤ recent_div / price * 100)
    (hhi : recent_div / price * 100 < 3) :
    (get_dividend_info recent_div (some price)).yield_pct
      = roundTo 2 (recent_div / price * 100) ∧
    eligible (get_dividend_info recent_div (some price)) = true := by
  have hraw : rawYield recent_div price = recent_div / price * 100 := by
    rw [rawYield, if_pos hp]
  have hclamp : ¬ (20 < rawYield recent_div price) := by rw [hraw]; linarith
  have hyp : (get_dividend_info recent_div (some price)).yield_pct
      = roundTo 2 (recent_div / price * 100) := by
    have : (get_dividend_info recent_div (some price)).yield_pct
        = roundTo 2 (if 20 < rawYield recent_div price then 0
                     else rawYield recent_div price) := rfl
    rw [this, if_neg hclamp, hraw]
  refine ⟨hyp, ?_⟩
  have h3 : (get_dividend_info recent_div (some price)).yield_pct = 3 := by
    rw [hyp, roundTo]
    have h300 : roundHalfEven (recent_div / price * 100 * 10 ^ 2) = 300 := by
      apply roundHalfEven_reaches_300 <;> nlinarith
    rw [h300]
    norm_num
  have hhas : (get_dividend_info recent_div (some price)).has_dividend
      = decide (0 < recent_div) := rfl
  have : eligible (get_dividend_info recent_div (some price))
      = ((get_dividend_info recent_div (some price)).has_dividend &&
        !decide ((get_dividend_info recent_div (some price)).yield_pct
          < MIN_DIVIDEND_YIELD)) := rfl
  rw [this, h3, hhas]
  simp [MIN_DIVIDEND_YIELD, hd]

/-- Witness for C9: dividend 2.996, price 100 — the raw yield 2.996 is
below the threshold yet the security qualifies. -/
theorem eligible_below_threshold_by_rounding_witness :
    (2996 : ℚ)/1000 / 100 * 100 < 3 ∧
    eligible (get_dividend_info (2996/1000) (some 100)) = true :=
  ⟨by decide,
    (eligible_below_threshold_by_rounding (2996/1000) 100 (by decide) (by decide)
      (by decide) (by decide)).2⟩

/-- C8: the written report is ordered descending by yield, is a permutation
of the qualifying rows, and rows of equal yield keep their original
relative order: for every yield value, filtering the output at that yield
returns exactly the input rows at that yield, in input order. -/
theorem write_result_order_spec (rs : List ScanRow) :
    (write_result_order rs).Pairwise (fun a b => b.yield_pct ≤ a.yield_pct) ∧
    (write_result_order rs).Perm rs ∧
    ∀ q : ℚ, (write_result_order rs).filter (fun r => decide (r.yield_pct = q))
      = rs.filter (fun r => decide (r.yield_pct = q)) := by
  have htrans : ∀ a b c : ScanRow, decide (b.yield_pct ≤ a.yield_pct) = true →
      decide (c.yield_pct ≤ b.yield_pct) = true →
      decide (c.yield_pct ≤ a.yield_pct) = true := by
    intro a b c hab hbc
    simp only [decide_eq_true_eq] at hab hbc ⊢
    exact le_trans hbc hab
  have htotal : ∀ a b : ScanRow, (decide (b.yield_pct ≤ a.yield_pct) ||
      decide (a.yield_pct ≤ b.yield_pct)) = true := by
    intro a b
    rcases le_total b.yield_pct a.yield_pct with h | h <;> simp [h]
  refine ⟨?_, List.mergeSort_perm rs _, ?_⟩
  · exact (List.sorted_mergeSort htrans htotal rs).imp (fun h => of_decide_eq_true h)
  · intro q
    have hsub : List.Sublist (rs.filter (fun r => decide (r.yield_pct = q)))
        (write_result_order rs) := by
      apply List.sublist_mergeSort htrans htotal
      · apply List.pairwise_of_forall_mem_list
        intro a ha b hb
        have ha' := (List.mem_filter.mp ha).2
        have hb' := (List.mem_filter.mp hb).2
        simp only [decide_eq_true_eq] at ha' hb' ⊢
        rw [ha', hb']
      · exact List.filter_sublist rs
    have heq : (rs.filter (fun r => decide (r.yield_pct = q))).filter
        (fun r => decide (r.yield_pct = q))
        = rs.filter (fun r => decide (r.yield_pct = q)) :=
      List.filter_eq_self.mpr (fun a ha => (List.mem_filter.mp ha).2)
    have hsub2 : List.Sublist (rs.filter (fun r => decide (r.yield_pct = q)))
        ((write_result_order rs).filter (fun r => decide (r.yield_pct = q))) := by
      have h1 := hsub.filter (fun r => decide (r.yield_pct = q))
      rwa [heq] at h1
    have hlen : (rs.filter (fun r => decide (r.yield_pct = q))).length
        = ((write_result_order rs).filter (fun r => decide (r.yield_pct = q))).length :=
      ((List.mergeSort_perm rs _).filter _).length_eq.symm
    exact (hsub2.eq_of_length hlen).symm

/-- Witness for C8: on a concrete three-row report the equal-yield rows
keep their input order under the filter characterization. -/
theorem write_result_order_spec_witness :
    (write_result_order [⟨"A", 3⟩, ⟨"B", 4⟩, ⟨"C", 3⟩]).filter
        (fun r => decide (r.yield_pct = 3))
      = [⟨"A", (3 : ℚ)⟩, ⟨"C", 3⟩] := by
  have h := (write_result_order_spec [⟨"A", 3⟩, ⟨"B", 4⟩, ⟨"C", 3⟩]).2.2 3
  rw [h]
  decide

end StockScan
